import Mathlib

/-!
# Verification of the Situation & Alert Analysis Pipeline

Shallow embedding of the core services of the AiCamera repository:
`src/services/situation_analyzer.py` (`SituationAnalyzer`) and
`src/services/alert_service.py` (`AlertService`).

Modelling conventions:
* Time instants are integers (seconds).  The Python code compares
  `datetime` differences against `timedelta(seconds=30)` and
  `timedelta(minutes=10)`; here those are the integer comparisons
  `now - t < 30` and `now - t < 600`.
* Entities are dictionaries in Python; a missing `'class'` key raises
  `KeyError`.  We model an entity's fields as `Option`s, and dictionary
  access as an `Except Unit` computation that errors on a missing field.
  `confidence` (a float) and `bounding_box` are carried as data
  (rationals) but — exactly as in the source — never read by the
  analyzer or the alert service.
* Python dicts preserve insertion order; `object_counts` is modelled as
  an association list whose key order is first-seen order, and Python's
  stable `sorted(..., reverse=True)` as a stable insertion sort.
* The `timestamp` field that `analyze` adds to its result dict is a wall
  clock read (`datetime.now().isoformat()`); it is outside the model, so
  `Summary` carries the six data fields of the analysis.
-/

/-- One detected entity as delivered to the services: a Python dict with
optional `'class'`, `'confidence'` and `'bbox'` keys. -/
structure Entity where
  cls : Option String
  confidence : Option ℚ
  boundingBox : Option (List (ℚ × ℚ))
deriving Repr, DecidableEq

/-- Dictionary access `obj['class']`: raises (errors) when the key is missing. -/
def getClass (e : Entity) : Except Unit String :=
  match e.cls with
  | some c => Except.ok c
  | none => Except.error ()

/-- The analysis dict produced by `SituationAnalyzer.analyze` (minus the
wall-clock `timestamp` field). -/
structure Summary where
  description : String
  environment : String
  activity_level : String
  people_count : Nat
  object_counts : List (String × Nat)
  primary_objects : List String
deriving Repr, DecidableEq

/-- `dict.get(key, 0)` on an insertion-ordered association list. -/
def lookupD (counts : List (String × Nat)) (key : String) : Nat :=
  match counts with
  | [] => 0
  | (k, n) :: rest => if k = key then n else lookupD rest key

/-- `object_counts[c] = object_counts.get(c, 0) + 1`: bump the count of `c`,
keeping first-seen key order (Python dict insertion order). -/
def bump (counts : List (String × Nat)) (c : String) : List (String × Nat) :=
  match counts with
  | [] => [(c, 1)]
  | (k, n) :: rest => if k = c then (k, n + 1) :: rest else (k, n) :: bump rest c

/-- The counting loop of `analyze`: group entities by `obj['class']`. -/
def objectCountsE (objects : List Entity) : Except Unit (List (String × Nat)) :=
  objects.foldlM (fun acc o => do
    let c ← getClass o
    pure (bump acc c)) []

/-- `SituationAnalyzer._calculate_activity_level`. -/
def calculateActivityLevelE (objects : List Entity) : Except Unit String := do
  let classes ← objects.mapM getClass
  let people_count := (classes.filter (fun c => c = "person")).length
  let vehicle_count := (classes.filter
    (fun c => c ∈ ["car", "vehicle", "bicycle", "motorcycle"])).length
  pure (if people_count > 5 ∨ vehicle_count > 3 then "high"
        else if people_count > 2 ∨ vehicle_count > 1 then "medium"
        else "low")

/-- `SituationAnalyzer._generate_description`. -/
def generateDescription (object_counts : List (String × Nat))
    (activity_level : String) : String :=
  let people := lookupD object_counts "person"
  let vehicles := lookupD object_counts "car" + lookupD object_counts "vehicle"
  let animals := lookupD object_counts "dog" + lookupD object_counts "cat"
  let descriptions : List String :=
    (if people = 0 then ["The area appears to be empty"]
     else if people = 1 then ["There is one person present"]
     else ["There are " ++ toString people ++ " people in the area"])
    ++ (if vehicles > 0 then [toString vehicles ++ " vehicle(s) detected"] else [])
    ++ (if animals > 0 then [toString animals ++ " animal(s) spotted"] else [])
    ++ (if activity_level = "high" then ["The scene shows high activity"]
        else if activity_level = "medium" then ["Moderate activity observed"]
        else ["The environment is calm"])
  String.intercalate ". " descriptions ++ "."

/-- `SituationAnalyzer._determine_environment`.  Note the indoor keyword
list of the source: `['chair', 'table', 'furniture', 'computer', 'tv']`. -/
def determineEnvironment (object_counts : List (String × Nat)) : String :=
  let indoor_objects := ["chair", "table", "furniture", "computer", "tv"]
  let outdoor_objects := ["car", "tree", "sky", "road"]
  let indoor_score := (indoor_objects.map (lookupD object_counts)).sum
  let outdoor_score := (outdoor_objects.map (lookupD object_counts)).sum
  if indoor_score > outdoor_score then "indoor"
  else if outdoor_score > indoor_score then "outdoor"
  else "unknown"

/-- Python's stable `sorted(items, key=count, reverse=True)`: insert `x`
before the first element of strictly smaller count; ties keep the order of
the list being folded. -/
def insertByCount (x : String × Nat) : List (String × Nat) → List (String × Nat)
  | [] => [x]
  | y :: ys => if x.2 ≥ y.2 then x :: y :: ys else y :: insertByCount x ys

/-- Stable sort of the `(class, count)` pairs by count descending. -/
def sortByCountDesc (l : List (String × Nat)) : List (String × Nat) :=
  l.foldr insertByCount []

/-- `SituationAnalyzer._get_primary_objects`: top three classes by count,
ties in dict insertion (first-seen) order; no class is excluded. -/
def getPrimaryObjects (object_counts : List (String × Nat)) : List String :=
  ((sortByCountDesc object_counts).take 3).map Prod.fst

/-- The body of `SituationAnalyzer.analyze`'s `try` block; errors model a
raised exception (a `KeyError` from `obj['class']`). -/
def analyzeE (objects : List Entity) : Except Unit Summary := do
  let object_counts ← objectCountsE objects
  let people_count := lookupD object_counts "person"
  let activity_level ← calculateActivityLevelE objects
  let description := generateDescription object_counts activity_level
  let environment := determineEnvironment object_counts
  pure { description := description
         environment := environment
         activity_level := activity_level
         people_count := people_count
         object_counts := object_counts
         primary_objects := getPrimaryObjects object_counts }

/-- `SituationAnalyzer._get_fallback_analysis` (minus the wall-clock field). -/
def fallbackAnalysis : Summary :=
  { description := "Unable to analyze scene. Please try again."
    environment := "unknown"
    activity_level := "unknown"
    people_count := 0
    object_counts := []
    primary_objects := [] }

/-- `SituationAnalyzer.analyze`: the `try`/`except` wrapper returning the
fallback analysis when the body raises. -/
def analyze (objects : List Entity) : Summary :=
  match analyzeE objects with
  | Except.ok s => s
  | Except.error _ => fallbackAnalysis

/-- Convenience constructor for a well-formed entity. -/
def mkEntity (c : String) (conf : ℚ) : Entity :=
  { cls := some c, confidence := some conf,
    boundingBox := some [(0, 0), (1, 0), (1, 1), (0, 1)] }

/-! ## Alert service (`src/services/alert_service.py`) -/

/-- Python's `needle in haystack` substring containment on char lists. -/
def listContainsSub (needle : List Char) : List Char → Bool
  | [] => needle.isEmpty
  | c :: rest => needle.isPrefixOf (c :: rest) || listContainsSub needle rest

/-- Python's `needle in haystack` for strings. -/
def isSubstring (needle haystack : String) : Bool :=
  listContainsSub needle.toList haystack.toList

/-- An alert dict as built by `AlertService._create_alert`.  The `alert_id`
field is a formatting of the creation instant, never read back; the
creation instant itself is the `timestamp` field. -/
structure Alert where
  type : String
  message : String
  priority : String
  timestamp : Int
deriving Repr, DecidableEq

/-- `AlertService._create_alert` at instant `now`. -/
def createAlert (now : Int) (alert_type message priority : String) : Alert :=
  { type := alert_type, message := message, priority := priority, timestamp := now }

/-- The cooldown window `self.alert_cooldown` (seconds). -/
def alertCooldown : Int := 30

/-- The history retention horizon, `timedelta(minutes=10)`, in seconds. -/
def retentionHorizon : Int := 600

/-- The `recent_similar` test inside `_filter_alerts_by_cooldown`: some
history entry has the same type and age strictly below the cooldown. -/
def recentSimilar (history : List Alert) (now : Int) (a : Alert) : Bool :=
  history.any (fun e => e.type = a.type ∧ now - e.timestamp < alertCooldown)

/-- One iteration of the `for alert in new_alerts` loop of
`_filter_alerts_by_cooldown`, acting on the `(valid_alerts, alert_history)`
state: a suppressed candidate changes nothing; an admitted candidate is
appended to both, and then the history is purged of entries aged ≥ 10 min. -/
def filterStep (now : Int) (st : List Alert × List Alert) (a : Alert) :
    List Alert × List Alert :=
  if recentSimilar st.2 now a then st
  else (st.1 ++ [a],
        (st.2 ++ [a]).filter (fun e => now - e.timestamp < retentionHorizon))

/-- `AlertService._filter_alerts_by_cooldown`: `current_time` is read once
(`now`); returns `(valid_alerts, final alert_history)`. -/
def filterAlertsByCooldown (history : List Alert) (now : Int)
    (new_alerts : List Alert) : List Alert × List Alert :=
  new_alerts.foldl (filterStep now) ([], history)

/-- The concerning-object keyword list of `check_alerts`. -/
def concerningObjects : List String := ["weapon", "knife", "gun", "fire"]

/-- The stationary-object keyword list of `_check_abandoned_objects`. -/
def stationaryObjects : List String := ["backpack", "bag", "luggage", "package"]

/-- `AlertService._check_abandoned_objects` (raises on a missing class). -/
def checkAbandonedObjectsE (objects : List Entity) : Except Unit Bool := do
  let classes ← objects.mapM getClass
  let stationary_count :=
    (classes.filter (fun c => stationaryObjects.any (fun so => isSubstring so c))).length
  pure (stationary_count > 2)

/-- The alert-building phase of `AlertService.check_alerts` (everything
before the cooldown filter), with every created alert stamped `now`.
Accessing `obj['class']` on a malformed entity raises, modelled as an
error that propagates (there is no handler in `check_alerts`). -/
def candidateAlertsE (objects : List Entity) (situation : Summary) (now : Int) :
    Except Unit (List Alert) := do
  let crowd :=
    if situation.people_count > 10 then
      [createAlert now "CROWD_DETECTED"
        ("Unusually large crowd detected: " ++ toString situation.people_count ++ " people")
        "medium"]
    else []
  let concerning ← objects.foldlM (fun acc o => do
    let c ← getClass o
    pure (if concerningObjects.any (fun w => isSubstring w c) then
            acc ++ [createAlert now "CONCERNING_OBJECT"
                      ("Concerning object detected: " ++ c) "high"]
          else acc)) []
  let unusual :=
    if situation.activity_level = "high" ∧ situation.people_count = 0 then
      [createAlert now "UNUSUAL_ACTIVITY"
        "High activity detected with no people present" "medium"]
    else []
  let abandoned ← checkAbandonedObjectsE objects
  let abandonedAlerts :=
    if abandoned then
      [createAlert now "ABANDONED_OBJECT" "Possible abandoned object detected" "low"]
    else []
  pure (crowd ++ concerning ++ unusual ++ abandonedAlerts)

/-- `AlertService.check_alerts`: build the candidate alerts, then filter by
cooldown against the mutable history; returns the admitted alerts together
with the updated history. -/
def checkAlertsE (objects : List Entity) (situation : Summary)
    (history : List Alert) (now : Int) : Except Unit (List Alert × List Alert) := do
  let alerts ← candidateAlertsE objects situation now
  pure (filterAlertsByCooldown history now alerts)

deriving instance DecidableEq for Except

/-- Invariant used for the same-call dedup lemma: every alert admitted so
far is still covered by a same-type, in-cooldown history entry. -/
def admittedCovered (now : Int) (st : List Alert × List Alert) : Prop :=
  ∀ a ∈ st.1, ∃ e ∈ st.2, e.type = a.type ∧ now - e.timestamp < alertCooldown

/-- The CONCERNING_OBJECT alerts `check_alerts` builds from a class list:
one alert per class containing a concerning keyword, carrying that class
in its message. -/
def concerningAlertsOf (classes : List String) (now : Int) : List Alert :=
  classes.filterMap (fun c =>
    if concerningObjects.any (fun w => isSubstring w c) then
      some (createAlert now "CONCERNING_OBJECT" ("Concerning object detected: " ++ c) "high")
    else none)

/-- Whether an entity's class (when present) contains a concerning keyword. -/
def isConcerningEntity (o : Entity) : Bool :=
  match o.cls with
  | some c => concerningObjects.any (fun w => isSubstring w c)
  | none => false

/-- Modelled from the spec: the environment rule as §4 states it, whose
indoor keyword set additionally contains `"couch"`; written only to be
compared against the source's `determineEnvironment`. -/
def specEnvironmentWithCouch (object_counts : List (String × Nat)) : String :=
  let indoor_keywords := ["chair", "table", "furniture", "computer", "tv", "couch"]
  let outdoor_keywords := ["car", "tree", "sky", "road"]
  let indoor_sum := (indoor_keywords.map (lookupD object_counts)).sum
  let outdoor_sum := (outdoor_keywords.map (lookupD object_counts)).sum
  if indoor_sum > outdoor_sum then "indoor"
  else if outdoor_sum > indoor_sum then "outdoor"
  else "unknown"

/-- An entity with its optional confidence and bounding-box fields
removed, keeping only the class: used to state that those fields never
influence the analyzer or the alert rules. -/
def stripExtras (e : Entity) : Entity :=
  { cls := e.cls, confidence := none, boundingBox := none }

/-- A CROWD_DETECTED alert stamped `t`, as in concrete scenario D. -/
def crowdAt (t : Int) : Alert :=
  createAlert t "CROWD_DETECTED" "Unusually large crowd detected: 12 people" "medium"

/-- A malformed entity: the `'class'` key is missing. -/
def badEntity : Entity :=
  { cls := none, confidence := some (1/2), boundingBox := some [] }

/-- The entity list of concrete scenario A. -/
def scenarioA : List Entity :=
  [mkEntity "person" (9/10), mkEntity "person" (4/5), mkEntity "chair" (7/10)]

/-- Two knife entities of different confidences (scenario C, doubled). -/
def twoKnives : List Entity := [mkEntity "knife" (1/2), mkEntity "knife" (9/10)]

/-- The CONCERNING_OBJECT alert built for a knife at instant `t`. -/
def knifeAlertAt (t : Int) : Alert :=
  createAlert t "CONCERNING_OBJECT" "Concerning object detected: knife" "high"

/-- History for the retention counterexample: one entry aged 1000 s (past
the 10-minute horizon) next to one aged 5 s. -/
def staleHistory : List Alert :=
  [createAlert 0 "CROWD_DETECTED" "old" "medium",
   createAlert 995 "ABANDONED_OBJECT" "recent" "low"]

/-- A fresh ABANDONED_OBJECT candidate at instant 1000, same type as the
recent history entry, so the call admits nothing. -/
def abandonedCand : Alert := createAlert 1000 "ABANDONED_OBJECT" "m" "low"

/-! ## Helper lemmas about the cooldown filter fold -/

/-- The `recent_similar` test is exactly existence of a same-type entry of
age strictly below the cooldown window. -/
theorem recentSimilar_iff (history : List Alert) (now : Int) (a : Alert) :
    recentSimilar history now a = true ↔
      ∃ e ∈ history, e.type = a.type ∧ now - e.timestamp < alertCooldown := by
  simp [recentSimilar]

/-- The valid-alerts accumulator only grows, by a sublist of the candidates:
the admitted output extends the initial accumulator in input order. -/
theorem foldl_filterStep_valid_shape (now : Int) :
    ∀ (cands : List Alert) (st : List Alert × List Alert),
      ∃ t, (cands.foldl (filterStep now) st).1 = st.1 ++ t ∧ t.Sublist cands := by
  intro cands
  induction cands with
  | nil => exact fun st => ⟨[], by simp, List.Sublist.refl []⟩
  | cons a rest ih =>
    intro st
    by_cases hrec : recentSimilar st.2 now a = true
    · obtain ⟨t, ht, hsub⟩ := ih (filterStep now st a)
      refine ⟨t, ?_, hsub.cons a⟩
      simpa [filterStep, hrec] using ht
    · obtain ⟨t, ht, hsub⟩ := ih (filterStep now st a)
      refine ⟨a :: t, ?_, hsub.cons₂ a⟩
      rw [List.foldl_cons, ht]
      simp [filterStep, hrec]

/-- Admitted alerts are a sublist (subsequence, original relative order) of
the candidates. -/
theorem filterAlerts_valid_sublist (history : List Alert) (now : Int)
    (cands : List Alert) :
    ((filterAlertsByCooldown history now cands).1).Sublist cands := by
  obtain ⟨t, ht, hsub⟩ := foldl_filterStep_valid_shape now cands ([], history)
  rw [filterAlertsByCooldown, ht]
  simpa using hsub

/-- If no candidate was admitted (the valid accumulator did not grow), the
fold leaves the whole state — history included — untouched. -/
theorem foldl_filterStep_no_admit (now : Int) :
    ∀ (cands : List Alert) (st : List Alert × List Alert),
      (cands.foldl (filterStep now) st).1 = st.1 →
      cands.foldl (filterStep now) st = st := by
  intro cands
  induction cands with
  | nil => intro st _; rfl
  | cons a rest ih =>
    intro st hvalid
    by_cases hrec : recentSimilar st.2 now a = true
    · have hstep : filterStep now st a = st := by simp [filterStep, hrec]
      rw [List.foldl_cons, hstep] at hvalid ⊢
      exact ih st hvalid
    · exfalso
      obtain ⟨t, ht, _⟩ := foldl_filterStep_valid_shape now rest (filterStep now st a)
      rw [List.foldl_cons, ht] at hvalid
      have hstep : (filterStep now st a).1 = st.1 ++ [a] := by
        simp [filterStep, hrec]
      rw [hstep, List.append_assoc] at hvalid
      have hlen := congrArg List.length hvalid
      simp at hlen

/-- Everything in the final history was already in the starting history or
is one of the admitted alerts. -/
theorem foldl_filterStep_mem (now : Int) :
    ∀ (cands : List Alert) (st : List Alert × List Alert) (e : Alert),
      e ∈ (cands.foldl (filterStep now) st).2 →
      e ∈ st.2 ∨ e ∈ (cands.foldl (filterStep now) st).1 := by
  intro cands
  induction cands with
  | nil => exact fun st e he => Or.inl he
  | cons a rest ih =>
    intro st e he
    rw [List.foldl_cons] at he ⊢
    by_cases hrec : recentSimilar st.2 now a = true
    · have hstep : filterStep now st a = st := by simp [filterStep, hrec]
      rw [hstep] at he ⊢
      exact ih st e he
    · rcases ih _ e he with hmem | hmem
      · have h2 : (filterStep now st a).2 =
            (st.2 ++ [a]).filter (fun x => now - x.timestamp < retentionHorizon) := by
          simp [filterStep, hrec]
        rw [h2] at hmem
        rcases List.mem_append.1 (List.mem_of_mem_filter hmem) with h | h
        · exact Or.inl h
        · right
          obtain ⟨t, ht, _⟩ := foldl_filterStep_valid_shape now rest (filterStep now st a)
          rw [ht]
          have h1 : (filterStep now st a).1 = st.1 ++ [a] := by
            simp [filterStep, hrec]
          rw [h1]
          simp_all
      · exact Or.inr hmem

/-- Any starting-history entry within the retention horizon of `now`
survives the whole call: the only removals are horizon purges. -/
theorem foldl_filterStep_young_mem (now : Int) :
    ∀ (cands : List Alert) (st : List Alert × List Alert) (e : Alert),
      e ∈ st.2 → now - e.timestamp < retentionHorizon →
      e ∈ (cands.foldl (filterStep now) st).2 := by
  intro cands
  induction cands with
  | nil => exact fun st e he _ => he
  | cons a rest ih =>
    intro st e he hyoung
    rw [List.foldl_cons]
    by_cases hrec : recentSimilar st.2 now a = true
    · have hstep : filterStep now st a = st := by simp [filterStep, hrec]
      rw [hstep]
      exact ih st e he hyoung
    · apply ih _ e _ hyoung
      have h2 : (filterStep now st a).2 =
          (st.2 ++ [a]).filter (fun x => now - x.timestamp < retentionHorizon) := by
        simp [filterStep, hrec]
      rw [h2]
      exact List.mem_filter.2 ⟨List.mem_append.2 (Or.inl he), by simpa using hyoung⟩

/-- Once some candidate has been admitted, every history entry is within
the retention horizon (the admitted branch always ends with a purge). -/
theorem foldl_filterStep_purged (now : Int) :
    ∀ (cands : List Alert) (st : List Alert × List Alert),
      (st.1 ≠ [] → ∀ e ∈ st.2, now - e.timestamp < retentionHorizon) →
      (cands.foldl (filterStep now) st).1 ≠ [] →
      ∀ e ∈ (cands.foldl (filterStep now) st).2, now - e.timestamp < retentionHorizon := by
  intro cands
  induction cands with
  | nil => exact fun st h => h
  | cons a rest ih =>
    intro st hP
    rw [List.foldl_cons]
    apply ih
    by_cases hrec : recentSimilar st.2 now a = true
    · have hstep : filterStep now st a = st := by simp [filterStep, hrec]
      rw [hstep]
      exact hP
    · intro _ e he
      have h2 : (filterStep now st a).2 =
          (st.2 ++ [a]).filter (fun x => now - x.timestamp < retentionHorizon) := by
        simp [filterStep, hrec]
      rw [h2] at he
      simpa using (List.mem_filter.1 he).2

/-- When every candidate of a call is stamped with the call instant, the
admitted output never contains two alerts of the same type: once one is
admitted it sits in history with age `0 < cooldown` and suppresses the rest
of the call's same-type candidates. -/
theorem foldl_filterStep_types_pairwise (now : Int) :
    ∀ (cands : List Alert) (st : List Alert × List Alert),
      (∀ a ∈ cands, a.timestamp = now) →
      admittedCovered now st →
      st.1.Pairwise (fun x y => x.type ≠ y.type) →
      ((cands.foldl (filterStep now) st).1).Pairwise (fun x y => x.type ≠ y.type) := by
  intro cands
  induction cands with
  | nil => exact fun st _ _ hpw => hpw
  | cons a rest ih =>
    intro st hstamp hcov hpw
    rw [List.foldl_cons]
    by_cases hrec : recentSimilar st.2 now a = true
    · have hstep : filterStep now st a = st := by simp [filterStep, hrec]
      rw [hstep]
      exact ih st (fun b hb => hstamp b (List.mem_cons_of_mem a hb)) hcov hpw
    · have hstamp_a : a.timestamp = now := hstamp a (List.mem_cons_self a rest)
      have h1 : (filterStep now st a).1 = st.1 ++ [a] := by simp [filterStep, hrec]
      have h2 : (filterStep now st a).2 =
          (st.2 ++ [a]).filter (fun x => now - x.timestamp < retentionHorizon) := by
        simp [filterStep, hrec]
      apply ih (filterStep now st a) (fun b hb => hstamp b (List.mem_cons_of_mem a hb))
      · intro b hb
        rw [h1] at hb
        rw [h2]
        rcases List.mem_append.1 hb with hb' | hb'
        · obtain ⟨e, hemem, hety, hecool⟩ := hcov b hb'
          refine ⟨e, List.mem_filter.2 ⟨List.mem_append.2 (Or.inl hemem), ?_⟩, hety, hecool⟩
          have : now - e.timestamp < retentionHorizon := by
            have h30 : alertCooldown ≤ retentionHorizon := by decide
            omega
          simpa using this
        · have hba : b = a := by simpa using hb'
          subst hba
          refine ⟨b, List.mem_filter.2 ⟨List.mem_append.2 (Or.inr (by simp)), ?_⟩, rfl, ?_⟩
          · simp [hstamp_a, retentionHorizon]
          · simp [hstamp_a, alertCooldown]
      · rw [h1]
        rw [List.pairwise_append]
        refine ⟨hpw, by simp, ?_⟩
        intro x hx y hy
        have hya : y = a := by simpa using hy
        subst hya
        intro hxy
        obtain ⟨e, hemem, hety, hecool⟩ := hcov x hx
        have : recentSimilar st.2 now y = true := by
          rw [recentSimilar_iff]
          exact ⟨e, hemem, by rw [hety, hxy], hecool⟩
        exact hrec this

/-- A one-candidate call whose candidate is suppressed returns nothing and
leaves the history untouched. -/
theorem filterAlerts_single_suppressed (history : List Alert) (now : Int)
    (a : Alert) (h : recentSimilar history now a = true) :
    filterAlertsByCooldown history now [a] = ([], history) := by
  simp [filterAlertsByCooldown, filterStep, h]

/-- A one-candidate call whose candidate is admitted returns it and appends
it to the history, which is then purged of entries at or past the horizon. -/
theorem filterAlerts_single_admitted (history : List Alert) (now : Int)
    (a : Alert) (h : recentSimilar history now a = false) :
    filterAlertsByCooldown history now [a] =
      ([a], (history ++ [a]).filter (fun e => now - e.timestamp < retentionHorizon)) := by
  simp [filterAlertsByCooldown, filterStep, h]

/-- C1: the admission check suppresses a candidate exactly when the history
holds a same-type entry of age strictly below the 30-second cooldown;
admitted candidates are returned in their original relative order (a
sublist of the input) and are appended to history; and admitting
CROWD_DETECTED at t = 0 and again at t = 10 s with cooldown 30 s makes the
second call return the empty sequence. -/
theorem dedup_admission_characterization :
    (∀ (history : List Alert) (now : Int) (a : Alert),
      ((filterAlertsByCooldown history now [a]).1 = [] ↔
        ∃ e ∈ history, e.type = a.type ∧ now - e.timestamp < alertCooldown)
      ∧ ((¬ ∃ e ∈ history, e.type = a.type ∧ now - e.timestamp < alertCooldown) →
          filterAlertsByCooldown history now [a] =
            ([a], (history ++ [a]).filter (fun e => now - e.timestamp < retentionHorizon))))
    ∧ (∀ (history : List Alert) (now : Int) (cands : List Alert),
        ((filterAlertsByCooldown history now cands).1).Sublist cands)
    ∧ filterAlertsByCooldown [] 0 [crowdAt 0] = ([crowdAt 0], [crowdAt 0])
    ∧ filterAlertsByCooldown [crowdAt 0] 10 [crowdAt 10] = ([], [crowdAt 0]) := by
  refine ⟨?_, filterAlerts_valid_sublist, by decide, by decide⟩
  intro history now a
  constructor
  · by_cases hrec : recentSimilar history now a = true
    · rw [filterAlerts_single_suppressed history now a hrec]
      exact iff_of_true rfl ((recentSimilar_iff history now a).1 hrec)
    · have hf : recentSimilar history now a = false := by
        simpa using hrec
      rw [filterAlerts_single_admitted history now a hf]
      refine iff_of_false (by simp) ?_
      intro hex
      exact hrec ((recentSimilar_iff history now a).2 hex)
  · intro hno
    have hf : recentSimilar history now a = false := by
      rw [Bool.eq_false_iff]
      intro hc
      exact hno ((recentSimilar_iff history now a).1 hc)
    exact filterAlerts_single_admitted history now a hf

/-- Witness for C1: with an empty history a CROWD_DETECTED candidate at
t = 5 is admitted and recorded. -/
theorem dedup_admission_characterization_witness :
    filterAlertsByCooldown [] 5 [crowdAt 5] = ([crowdAt 5], [crowdAt 5]) := by
  have h := (dedup_admission_characterization.1 [] 5 (crowdAt 5)).2 (by simp)
  rw [h]
  decide

/-- C10: the cooldown filter mutates history only in the admitted branch.
A call admitting nothing (all candidates suppressed, or none given) leaves
the history exactly as it was — no horizon purge happens; and in general the
final history contains only former entries and admitted alerts, keeps every
former entry within the horizon, and drops former entries only when their
age is at least the 10-minute horizon. -/
theorem dedup_history_frame (history : List Alert) (now : Int)
    (cands : List Alert) :
    ((filterAlertsByCooldown history now cands).1 = [] →
      (filterAlertsByCooldown history now cands).2 = history)
    ∧ (∀ e ∈ (filterAlertsByCooldown history now cands).2,
        e ∈ history ∨ e ∈ (filterAlertsByCooldown history now cands).1)
    ∧ (∀ e ∈ history, now - e.timestamp < retentionHorizon →
        e ∈ (filterAlertsByCooldown history now cands).2)
    ∧ (∀ e ∈ history, e ∉ (filterAlertsByCooldown history now cands).2 →
        retentionHorizon ≤ now - e.timestamp) := by
  refine ⟨?_, ?_, ?_, ?_⟩
  · intro hvalid
    have h := foldl_filterStep_no_admit now cands ([], history) hvalid
    rw [filterAlertsByCooldown, h]
  · exact foldl_filterStep_mem now cands ([], history)
  · exact fun e he hy => foldl_filterStep_young_mem now cands ([], history) e he hy
  · intro e he hnot
    by_contra hlt
    exact hnot (foldl_filterStep_young_mem now cands ([], history) e he (by omega))

/-- Witness for C10: a call whose only candidate is suppressed leaves the
(partly stale) history unchanged. -/
theorem dedup_history_frame_witness :
    (filterAlertsByCooldown staleHistory 1000 [abandonedCand]).2 = staleHistory :=
  (dedup_history_frame staleHistory 1000 [abandonedCand]).1 (by decide)

/-- C3 fails on the code: the purge is not step 1 of processing a
candidate — it only runs in the admitted branch.  Here a call at t = 1000
whose only candidate is suppressed runs no purge, and after the admission
check the history still holds an entry aged 1000 s ≥ 600 s. -/
theorem retention_purge_counterexample :
    (filterAlertsByCooldown staleHistory 1000 [abandonedCand]).1 = []
    ∧ (filterAlertsByCooldown staleHistory 1000 [abandonedCand]).2 = staleHistory
    ∧ ∃ e ∈ (filterAlertsByCooldown staleHistory 1000 [abandonedCand]).2,
        retentionHorizon ≤ 1000 - e.timestamp := by
  decide

/-- C3 amended: entries older than the 10-minute horizon are purged
whenever a candidate is admitted (the purge runs after each admitted
append, with the call's single `now`), so after any admission call that
admits at least one candidate every history entry is strictly younger than
10 minutes; a call that admits nothing performs no purge. -/
theorem retention_horizon_after_admission (history : List Alert) (now : Int)
    (cands : List Alert)
    (hadm : (filterAlertsByCooldown history now cands).1 ≠ []) :
    ∀ e ∈ (filterAlertsByCooldown history now cands).2,
      now - e.timestamp < retentionHorizon :=
  foldl_filterStep_purged now cands ([], history) (fun h => absurd rfl h) hadm

/-- Witness for C3's amended statement: admitting a fresh CROWD_DETECTED at
t = 1000 purges the stale history; the surviving recent entry is within the
horizon. -/
theorem retention_horizon_after_admission_witness :
    (1000 : Int) - (createAlert 995 "ABANDONED_OBJECT" "recent" "low").timestamp
      < retentionHorizon :=
  retention_horizon_after_admission staleHistory 1000 [crowdAt 1000] (by decide)
    (createAlert 995 "ABANDONED_OBJECT" "recent" "low") (by decide)

/-- C2: if the history holds no same-type entry within the cooldown of
`t₁`, then submitting two candidates of one type twice in the same call
(the first stamped with the call instant) admits exactly the first; and
submitting them in two calls less than the cooldown window apart admits
the first call's candidate and none of the second call's — the type shows
up exactly once in the combined admitted output. -/
theorem dedup_same_type_once (history : List Alert) (t₁ t₂ : Int) (a b : Alert)
    (hty : b.type = a.type) (hts : a.timestamp = t₁)
    (hfresh : ∀ e ∈ history, e.type = a.type → alertCooldown ≤ t₁ - e.timestamp) :
    (filterAlertsByCooldown history t₁ [a, b]).1 = [a]
    ∧ (t₂ - t₁ < alertCooldown →
        (filterAlertsByCooldown history t₁ [a]).1 = [a]
        ∧ (filterAlertsByCooldown
            (filterAlertsByCooldown history t₁ [a]).2 t₂ [b]).1 = []) := by
  have hrec : recentSimilar history t₁ a = false := by
    rw [Bool.eq_false_iff]
    intro hc
    obtain ⟨e, he, hety, hecool⟩ := (recentSimilar_iff history t₁ a).1 hc
    exact absurd hecool (not_lt.2 (hfresh e he hety))
  have hstep1 : filterStep t₁ (([] : List Alert), history) a =
      ([a], (history ++ [a]).filter (fun e => t₁ - e.timestamp < retentionHorizon)) := by
    simp [filterStep, hrec]
  have hamem : a ∈ (history ++ [a]).filter
      (fun e => t₁ - e.timestamp < retentionHorizon) := by
    refine List.mem_filter.2 ⟨by simp, ?_⟩
    simp [hts, retentionHorizon]
  have hrec2 : ∀ t : Int, t - t₁ < alertCooldown →
      recentSimilar ((history ++ [a]).filter
        (fun e => t₁ - e.timestamp < retentionHorizon)) t b = true := by
    intro t htlt
    rw [recentSimilar_iff]
    exact ⟨a, hamem, hty.symm, by rw [hts]; exact htlt⟩
  constructor
  · have h0 : t₁ - t₁ < alertCooldown := by norm_num [alertCooldown]
    have hsup : ∀ v h2, recentSimilar h2 t₁ b = true →
        filterStep t₁ (v, h2) b = (v, h2) := by
      intro v h2 hc
      simp [filterStep, hc]
    rw [filterAlertsByCooldown, List.foldl_cons, hstep1, List.foldl_cons,
      hsup _ _ (hrec2 t₁ h0)]
    rfl
  · intro hgap
    have hfirst := filterAlerts_single_admitted history t₁ a hrec
    refine ⟨by rw [hfirst], ?_⟩
    rw [hfirst]
    rw [filterAlerts_single_suppressed _ t₂ b (hrec2 t₂ hgap)]

/-- Witness for C2: CROWD_DETECTED admitted at t = 0, resubmitted in the
same call and again at t = 10 s, ends up in the combined output once. -/
theorem dedup_same_type_once_witness :
    (filterAlertsByCooldown [] 0 [crowdAt 0, crowdAt 0]).1 = [crowdAt 0]
    ∧ ((filterAlertsByCooldown [] 0 [crowdAt 0]).1 = [crowdAt 0]
       ∧ (filterAlertsByCooldown
            (filterAlertsByCooldown [] 0 [crowdAt 0]).2 10 [crowdAt 10]).1 = []) := by
  have h := dedup_same_type_once [] 0 10 (crowdAt 0) (crowdAt 10) rfl rfl
    (by intro e he; simp at he)
  exact ⟨h.1, h.2 (by norm_num [alertCooldown])⟩

/-! ## Helper lemmas about the analyzer -/

instance : IsTotal (String × Nat) (fun p q => p.2 ≥ q.2) :=
  ⟨fun a b => le_total b.2 a.2⟩

instance : IsTrans (String × Nat) (fun p q => p.2 ≥ q.2) :=
  ⟨fun _ _ _ h₁ h₂ => le_trans h₂ h₁⟩

/-- `insertByCount` is ordered insertion for the count-descending relation. -/
theorem insertByCount_eq_orderedInsert (x : String × Nat) (l : List (String × Nat)) :
    insertByCount x l = List.orderedInsert (fun p q => p.2 ≥ q.2) x l := by
  induction l with
  | nil => rfl
  | cons y ys ih => simp [insertByCount, List.orderedInsert, ih]

/-- `sortByCountDesc` is insertion sort for the count-descending relation. -/
theorem sortByCountDesc_eq_insertionSort (l : List (String × Nat)) :
    sortByCountDesc l = List.insertionSort (fun p q => p.2 ≥ q.2) l := by
  induction l with
  | nil => rfl
  | cons x xs ih =>
    simp [sortByCountDesc, List.insertionSort, insertByCount_eq_orderedInsert]
    rw [← ih]
    rfl

/-- The ranking used by `_get_primary_objects` is sorted: counts are
non-increasing along the output. -/
theorem sortByCountDesc_sorted (l : List (String × Nat)) :
    List.Pairwise (fun p q => p.2 ≥ q.2) (sortByCountDesc l) := by
  rw [sortByCountDesc_eq_insertionSort]
  exact List.sorted_insertionSort (fun p q => p.2 ≥ q.2) l

/-- The ranking is a permutation of the `(class, count)` pairs. -/
theorem sortByCountDesc_perm (l : List (String × Nat)) :
    List.Perm (sortByCountDesc l) l := by
  rw [sortByCountDesc_eq_insertionSort]
  exact List.perm_insertionSort (fun p q => p.2 ≥ q.2) l

/-- Inversion for a successful analysis: each summary field is what the
source computes from the grouped counts. -/
theorem analyzeE_ok_fields (objects : List Entity) (s : Summary)
    (h : analyzeE objects = Except.ok s) :
    objectCountsE objects = Except.ok s.object_counts
    ∧ calculateActivityLevelE objects = Except.ok s.activity_level
    ∧ s.people_count = lookupD s.object_counts "person"
    ∧ s.description = generateDescription s.object_counts s.activity_level
    ∧ s.environment = determineEnvironment s.object_counts
    ∧ s.primary_objects = getPrimaryObjects s.object_counts := by
  unfold analyzeE at h
  cases hc : objectCountsE objects with
  | error e =>
    rw [hc] at h
    exact absurd h (by simp [Bind.bind, Except.bind])
  | ok counts =>
    rw [hc] at h
    cases ha : calculateActivityLevelE objects with
    | error e =>
      rw [ha] at h
      exact absurd h (by simp [Bind.bind, Except.bind])
    | ok act =>
      rw [ha] at h
      simp only [Bind.bind, Except.bind, pure, Except.pure, Except.ok.injEq] at h
      subst h
      exact ⟨rfl, rfl, rfl, rfl, rfl, rfl⟩

/-- C4 fails on the code: `_get_primary_objects` sorts every class,
"person" included.  For `[person, person, chair]` the computed
`primary_objects` is `["person", "chair"]`, which contains "person" and is
not the `["chair"]` the claim requires. -/
theorem primary_objects_person_counterexample :
    (analyze scenarioA).primary_objects = ["person", "chair"]
    ∧ "person" ∈ (analyze scenarioA).primary_objects
    ∧ (analyze scenarioA).primary_objects ≠ ["chair"] := by
  decide

/-- C4 amended: `primary_objects` is the list of all classes — "person"
not excluded — ranked by count descending with ties in first-seen order
(the ranking is a sorted permutation of the grouped counts), truncated to
at most 3 entries; for `[person, person, chair]` it is
`["person", "chair"]`. -/
theorem primary_objects_rule :
    (∀ objects : List Entity, ((analyze objects).primary_objects).length ≤ 3)
    ∧ (∀ objects : List Entity, (analyze objects).primary_objects =
        ((sortByCountDesc (analyze objects).object_counts).take 3).map Prod.fst)
    ∧ (∀ l : List (String × Nat),
        List.Pairwise (fun p q => p.2 ≥ q.2) (sortByCountDesc l))
    ∧ (∀ l : List (String × Nat), List.Perm (sortByCountDesc l) l)
    ∧ (analyze scenarioA).primary_objects = ["person", "chair"] := by
  have key : ∀ objects : List Entity, (analyze objects).primary_objects =
      ((sortByCountDesc (analyze objects).object_counts).take 3).map Prod.fst := by
    intro objects
    unfold analyze
    cases h : analyzeE objects with
    | error e => rfl
    | ok s => exact (analyzeE_ok_fields objects s h).2.2.2.2.2
  refine ⟨?_, key, sortByCountDesc_sorted, sortByCountDesc_perm, by decide⟩
  intro objects
  rw [key objects]
  simp [List.length_take]

/-- C5 fails as stated: the spec's indoor keyword set contains "couch" but
the code's does not, so a lone couch entity yields "unknown" where the
claimed rule yields "indoor". -/
theorem environment_couch_counterexample :
    specEnvironmentWithCouch (analyze [mkEntity "couch" (9/10)]).object_counts = "indoor"
    ∧ (analyze [mkEntity "couch" (9/10)]).environment = "unknown" := by
  decide

/-- C5 amended: the environment is computed by the claimed sum-comparison
rule, but over the indoor keyword set {chair, table, furniture, computer,
tv} — without "couch": "indoor" when the indoor sum is strictly greater,
"outdoor" when the outdoor sum is strictly greater, else "unknown"
(the empty list gives "unknown"). -/
theorem environment_rule (objects : List Entity) :
    (analyze objects).environment =
      (let counts := (analyze objects).object_counts
       let indoor_sum :=
         (["chair", "table", "furniture", "computer", "tv"].map (lookupD counts)).sum
       let outdoor_sum :=
         (["car", "tree", "sky", "road"].map (lookupD counts)).sum
       if indoor_sum > outdoor_sum then "indoor"
       else if outdoor_sum > indoor_sum then "outdoor"
       else "unknown") := by
  unfold analyze
  cases h : analyzeE objects with
  | error e => rfl
  | ok s => exact (analyzeE_ok_fields objects s h).2.2.2.2.1

/-- C7: `analyze` is total — it returns the successful analysis when the
body succeeds, and on any internal error it returns exactly the fixed
fallback summary, so the caller always receives a well-formed summary. -/
theorem analyze_total_fallback :
    (∀ (objects : List Entity) (s : Summary),
        analyzeE objects = Except.ok s → analyze objects = s)
    ∧ (∀ objects : List Entity,
        analyzeE objects = Except.error () → analyze objects = fallbackAnalysis)
    ∧ fallbackAnalysis =
        { description := "Unable to analyze scene. Please try again."
          environment := "unknown"
          activity_level := "unknown"
          people_count := 0
          object_counts := []
          primary_objects := [] } := by
  refine ⟨?_, ?_, rfl⟩
  · intro objects s h
    unfold analyze
    rw [h]
  · intro objects h
    unfold analyze
    rw [h]

/-- Witness for C7: a malformed entity makes the body raise; `analyze`
returns the fixed fallback summary instead of failing. -/
theorem analyze_total_fallback_witness :
    analyze [badEntity] = fallbackAnalysis :=
  analyze_total_fallback.2.1 [badEntity] rfl

/-! ## Class-only dependence and error propagation -/

/-- Entities with equal class fields are indistinguishable to `obj['class']`. -/
theorem getClass_congr {e₁ e₂ : Entity} (h : e₁.cls = e₂.cls) :
    getClass e₁ = getClass e₂ := by
  unfold getClass
  rw [h]

/-- A missing class makes `obj['class']` raise. -/
theorem getClass_none {e : Entity} (h : e.cls = none) :
    getClass e = Except.error () := by
  unfold getClass
  rw [h]

/-- A monadic fold whose step reads only the class field gives equal
results on entity lists with equal class sequences. -/
theorem foldlM_congr_cls {β : Type} (f : β → Entity → Except Unit β)
    (hf : ∀ (acc : β) (e₁ e₂ : Entity), e₁.cls = e₂.cls → f acc e₁ = f acc e₂) :
    ∀ (o₁ o₂ : List Entity) (acc : β), o₁.map Entity.cls = o₂.map Entity.cls →
      o₁.foldlM f acc = o₂.foldlM f acc := by
  intro o₁
  induction o₁ with
  | nil =>
    intro o₂ acc h
    cases o₂ with
    | nil => rfl
    | cons b bs => simp at h
  | cons a as ih =>
    intro o₂ acc h
    cases o₂ with
    | nil => simp at h
    | cons b bs =>
      simp only [List.map_cons, List.cons.injEq] at h
      rw [List.foldlM_cons, List.foldlM_cons, hf acc a b h.1]
      cases hfb : f acc b with
      | error e => rfl
      | ok acc' =>
        show as.foldlM f acc' = bs.foldlM f acc'
        exact ih bs acc' h.2

/-- A monadic fold whose step raises on a missing class raises as soon as
any entity of the list lacks its class. -/
theorem foldlM_error_cls {β : Type} (f : β → Entity → Except Unit β)
    (hf : ∀ (acc : β) (e : Entity), e.cls = none → f acc e = Except.error ()) :
    ∀ (objects : List Entity) (acc : β), (∃ o ∈ objects, o.cls = none) →
      objects.foldlM f acc = Except.error () := by
  intro objects
  induction objects with
  | nil =>
    intro acc h
    simp at h
  | cons a as ih =>
    intro acc h
    rw [List.foldlM_cons]
    by_cases ha : a.cls = none
    · rw [hf acc a ha]
      rfl
    · obtain ⟨o, ho, hon⟩ := h
      rcases List.mem_cons.1 ho with rfl | hmem
      · exact absurd hon ha
      · cases hfa : f acc a with
        | error e => cases e; rfl
        | ok acc' =>
          show as.foldlM f acc' = Except.error ()
          exact ih acc' ⟨o, hmem, hon⟩

/-- `mapM getClass` only looks at the class sequence. -/
theorem mapM_getClass_congr :
    ∀ (o₁ o₂ : List Entity), o₁.map Entity.cls = o₂.map Entity.cls →
      o₁.mapM getClass = o₂.mapM getClass := by
  intro o₁
  induction o₁ with
  | nil =>
    intro o₂ h
    cases o₂ with
    | nil => rfl
    | cons b bs => simp at h
  | cons a as ih =>
    intro o₂ h
    cases o₂ with
    | nil => simp at h
    | cons b bs =>
      simp only [List.map_cons, List.cons.injEq] at h
      rw [List.mapM_cons, List.mapM_cons, getClass_congr h.1, ih bs h.2]

/-- `mapM getClass` raises as soon as any entity lacks its class. -/
theorem mapM_getClass_error :
    ∀ objects : List Entity, (∃ o ∈ objects, o.cls = none) →
      objects.mapM getClass = Except.error () := by
  intro objects
  induction objects with
  | nil =>
    intro h
    simp at h
  | cons a as ih =>
    intro h
    rw [List.mapM_cons]
    by_cases ha : a.cls = none
    · rw [getClass_none ha]
      rfl
    · obtain ⟨o, ho, hon⟩ := h
      rcases List.mem_cons.1 ho with rfl | hmem
      · exact absurd hon ha
      · cases hga : getClass a with
        | error e => cases e; rfl
        | ok c =>
          show (as.mapM getClass >>= fun xs => pure (c :: xs)) = Except.error ()
          rw [ih ⟨o, hmem, hon⟩]
          rfl

/-- The grouping loop depends only on the class sequence. -/
theorem objectCountsE_congr {o₁ o₂ : List Entity}
    (h : o₁.map Entity.cls = o₂.map Entity.cls) :
    objectCountsE o₁ = objectCountsE o₂ := by
  unfold objectCountsE
  exact foldlM_congr_cls _
    (fun acc e₁ e₂ hc => by simp only [getClass_congr hc]) o₁ o₂ [] h

/-- The activity-level computation depends only on the class sequence. -/
theorem calculateActivityLevelE_congr {o₁ o₂ : List Entity}
    (h : o₁.map Entity.cls = o₂.map Entity.cls) :
    calculateActivityLevelE o₁ = calculateActivityLevelE o₂ := by
  unfold calculateActivityLevelE
  rw [mapM_getClass_congr o₁ o₂ h]

/-- `analyze`'s body depends only on the class sequence. -/
theorem analyzeE_congr {o₁ o₂ : List Entity}
    (h : o₁.map Entity.cls = o₂.map Entity.cls) :
    analyzeE o₁ = analyzeE o₂ := by
  unfold analyzeE
  rw [objectCountsE_congr h, calculateActivityLevelE_congr h]

/-- `analyze` depends only on the class sequence. -/
theorem analyze_congr {o₁ o₂ : List Entity}
    (h : o₁.map Entity.cls = o₂.map Entity.cls) :
    analyze o₁ = analyze o₂ := by
  unfold analyze
  rw [analyzeE_congr h]

/-- The abandoned-object check depends only on the class sequence. -/
theorem checkAbandonedObjectsE_congr {o₁ o₂ : List Entity}
    (h : o₁.map Entity.cls = o₂.map Entity.cls) :
    checkAbandonedObjectsE o₁ = checkAbandonedObjectsE o₂ := by
  unfold checkAbandonedObjectsE
  rw [mapM_getClass_congr o₁ o₂ h]

/-- The candidate-building phase of `check_alerts` depends only on the
class sequence (and the situation summary). -/
theorem candidateAlertsE_congr {o₁ o₂ : List Entity}
    (h : o₁.map Entity.cls = o₂.map Entity.cls) (s : Summary) (now : Int) :
    candidateAlertsE o₁ s now = candidateAlertsE o₂ s now := by
  unfold candidateAlertsE
  rw [foldlM_congr_cls _
    (fun acc e₁ e₂ hc => by simp only [getClass_congr hc]) o₁ o₂ [] h,
    checkAbandonedObjectsE_congr h]

/-- `check_alerts` depends only on the class sequence (and the summary,
history and instant). -/
theorem checkAlertsE_congr {o₁ o₂ : List Entity}
    (h : o₁.map Entity.cls = o₂.map Entity.cls) (s : Summary)
    (history : List Alert) (now : Int) :
    checkAlertsE o₁ s history now = checkAlertsE o₂ s history now := by
  unfold checkAlertsE
  rw [candidateAlertsE_congr h s now]

/-- `analyze`'s body raises when some entity lacks its class. -/
theorem analyzeE_error {objects : List Entity}
    (h : ∃ o ∈ objects, o.cls = none) :
    analyzeE objects = Except.error () := by
  unfold analyzeE objectCountsE
  rw [foldlM_error_cls _
    (fun acc e he => by simp only [getClass_none he]; rfl) objects [] h]
  rfl

/-- `check_alerts` raises (the error propagates — there is no handler)
when some entity lacks its class. -/
theorem checkAlertsE_error {objects : List Entity}
    (h : ∃ o ∈ objects, o.cls = none) (s : Summary)
    (history : List Alert) (now : Int) :
    checkAlertsE objects s history now = Except.error () := by
  unfold checkAlertsE candidateAlertsE
  rw [foldlM_error_cls _
    (fun acc e he => by simp only [getClass_none he]; rfl) objects [] h]
  rfl

/-- C9: two entity lists with equal class-name sequences get identical
summaries — description, environment, activity_level, people_count,
object_counts and primary_objects all agree; the confidence scores and
bounding boxes never influence the analysis. -/
theorem analyze_class_noninterference (o₁ o₂ : List Entity)
    (h : o₁.map Entity.cls = o₂.map Entity.cls) :
    analyze o₁ = analyze o₂ :=
  analyze_congr h

/-- Witness for C9: changing confidences and bounding boxes of a
person-and-chair scene leaves the summary unchanged. -/
theorem analyze_class_noninterference_witness :
    analyze [mkEntity "person" (9/10), mkEntity "chair" (1/2)] =
      analyze
        [{ cls := some "person", confidence := some (1/10), boundingBox := none },
         { cls := some "chair", confidence := none, boundingBox := some [] }] :=
  analyze_class_noninterference _ _ rfl

/-- C8 fails on the code: an entity whose `'class'` key is missing makes
`analyze` abandon the whole batch (the well-formed knife entity is not
processed — the fallback summary counts nothing), and makes `check_alerts`
raise rather than complete. -/
theorem malformed_entity_counterexample :
    analyze [badEntity, mkEntity "knife" (1/2)] = fallbackAnalysis
    ∧ (analyze [badEntity, mkEntity "knife" (1/2)]).object_counts = []
    ∧ checkAlertsE [badEntity, mkEntity "knife" (1/2)] fallbackAnalysis [] 0 =
        Except.error () := by
  decide

/-- C8 amended: a missing confidence or bounding box is harmless — neither
`analyze` nor `check_alerts` reads those fields, so stripping them changes
nothing and the batch is processed normally; a missing class field instead
makes `analyze` return the fallback summary (the batch is abandoned) and
makes `check_alerts` propagate an error. -/
theorem malformed_entity_handling :
    (∀ objects : List Entity,
        analyze (objects.map stripExtras) = analyze objects
        ∧ ∀ (s : Summary) (history : List Alert) (now : Int),
            checkAlertsE (objects.map stripExtras) s history now =
              checkAlertsE objects s history now)
    ∧ (∀ objects : List Entity, (∃ o ∈ objects, o.cls = none) →
        analyze objects = fallbackAnalysis
        ∧ ∀ (s : Summary) (history : List Alert) (now : Int),
            checkAlertsE objects s history now = Except.error ()) := by
  constructor
  · intro objects
    have hmap : (objects.map stripExtras).map Entity.cls = objects.map Entity.cls := by
      simp [stripExtras, Function.comp]
    exact ⟨analyze_congr hmap, fun s history now => checkAlertsE_congr hmap s history now⟩
  · intro objects h
    refine ⟨?_, fun s history now => checkAlertsE_error h s history now⟩
    unfold analyze
    rw [analyzeE_error h]

/-- Witness for C8's amended statement: a batch holding only a class-less
entity falls back in the analyzer and errors in the evaluator. -/
theorem malformed_entity_handling_witness :
    analyze [badEntity] = fallbackAnalysis
    ∧ checkAlertsE [badEntity] fallbackAnalysis [] 0 = Except.error () := by
  have h := malformed_entity_handling.2 [badEntity] ⟨badEntity, by simp, rfl⟩
  exact ⟨h.1, h.2 fallbackAnalysis [] 0⟩

/-! ## The concerning-object rule -/

/-- A `filterMap` of a guarded `some` is a `map` over the `filter`. -/
theorem filterMap_if_eq_map_filter {α β : Type} (p : α → Bool) (g : α → β) :
    ∀ l : List α,
      l.filterMap (fun c => if p c then some (g c) else none) = (l.filter p).map g := by
  intro l
  induction l with
  | nil => rfl
  | cons c cs ih =>
    by_cases hc : p c = true
    · simp [List.filterMap_cons, List.filter_cons, hc, ih]
    · simp [List.filterMap_cons, List.filter_cons, hc, ih]

/-- The CONCERNING_OBJECT alerts are exactly one per concerning class, in
input order, carrying that class in the message. -/
theorem concerningAlertsOf_eq (classes : List String) (now : Int) :
    concerningAlertsOf classes now =
      (classes.filter (fun c => concerningObjects.any (fun w => isSubstring w c))).map
        (fun c => createAlert now "CONCERNING_OBJECT"
          ("Concerning object detected: " ++ c) "high") :=
  filterMap_if_eq_map_filter _ _ classes

/-- The concerning-object loop of `check_alerts`, on a batch whose classes
all resolve, appends exactly the concerning alerts of those classes. -/
theorem concerningFold_ok (now : Int) :
    ∀ (objects : List Entity) (classes : List String),
      objects.mapM getClass = Except.ok classes →
      ∀ acc : List Alert,
        objects.foldlM (fun acc o => do
          let c ← getClass o
          pure (if concerningObjects.any (fun w => isSubstring w c) then
                  acc ++ [createAlert now "CONCERNING_OBJECT"
                            ("Concerning object detected: " ++ c) "high"]
                else acc)) acc
        = Except.ok (acc ++ concerningAlertsOf classes now) := by
  intro objects
  induction objects with
  | nil =>
    intro classes h acc
    rw [List.mapM_nil] at h
    have hcl : classes = [] := by
      simpa [pure, Except.pure, eq_comm] using h
    subst hcl
    simp [concerningAlertsOf, pure, Except.pure]
  | cons a as ih =>
    intro classes h acc
    rw [List.mapM_cons] at h
    cases hga : getClass a with
    | error e =>
      rw [hga] at h
      exact absurd h (by simp [Bind.bind, Except.bind])
    | ok c =>
      rw [hga] at h
      cases hmas : as.mapM getClass with
      | error e =>
        rw [hmas] at h
        exact absurd h (by simp [Bind.bind, Except.bind])
      | ok cs =>
        rw [hmas] at h
        simp only [Bind.bind, Except.bind, pure, Except.pure, Except.ok.injEq] at h
        subst h
        rw [List.foldlM_cons, hga]
        show as.foldlM _
            (if concerningObjects.any (fun w => isSubstring w c) then
              acc ++ [createAlert now "CONCERNING_OBJECT"
                        ("Concerning object detected: " ++ c) "high"]
            else acc) = _
        by_cases hcc : concerningObjects.any (fun w => isSubstring w c) = true
        · rw [if_pos hcc, ih cs hmas]
          rw [concerningAlertsOf_eq, concerningAlertsOf_eq, List.filter_cons,
            if_pos hcc, List.map_cons]
          simp
        · rw [if_neg hcc, ih cs hmas]
          rw [concerningAlertsOf_eq, concerningAlertsOf_eq, List.filter_cons,
            if_neg hcc]

/-- The abandoned-object check on a batch whose classes all resolve. -/
theorem checkAbandonedObjectsE_ok {objects : List Entity} {classes : List String}
    (h : objects.mapM getClass = Except.ok classes) :
    checkAbandonedObjectsE objects = Except.ok
      (decide ((classes.filter
        (fun c => stationaryObjects.any (fun so => isSubstring so c))).length > 2)) := by
  unfold checkAbandonedObjectsE
  rw [h]
  rfl

/-- The full candidate list of `check_alerts` on a batch whose classes all
resolve: crowd, then one CONCERNING_OBJECT per concerning entity, then
unusual activity, then abandoned object. -/
theorem candidateAlertsE_ok {objects : List Entity} {classes : List String}
    (h : objects.mapM getClass = Except.ok classes) (s : Summary) (now : Int) :
    candidateAlertsE objects s now = Except.ok (
      (if s.people_count > 10 then
        [createAlert now "CROWD_DETECTED"
          ("Unusually large crowd detected: " ++ toString s.people_count ++ " people")
          "medium"]
      else [])
      ++ concerningAlertsOf classes now
      ++ (if s.activity_level = "high" ∧ s.people_count = 0 then
            [createAlert now "UNUSUAL_ACTIVITY"
              "High activity detected with no people present" "medium"]
          else [])
      ++ (if (classes.filter
                (fun c => stationaryObjects.any (fun so => isSubstring so c))).length > 2 then
            [createAlert now "ABANDONED_OBJECT" "Possible abandoned object detected" "low"]
          else [])) := by
  unfold candidateAlertsE
  rw [concerningFold_ok now objects classes h [], checkAbandonedObjectsE_ok h]
  simp [Bind.bind, Except.bind, pure, Except.pure]

/-- Alerts of any other type never survive the CONCERNING_OBJECT filter. -/
theorem filter_concerning_ite (P : Prop) [Decidable P] (t msg pr : String)
    (now : Int) (ht : t ≠ "CONCERNING_OBJECT") :
    ((if P then [createAlert now t msg pr] else []).filter
      (fun a => a.type = "CONCERNING_OBJECT")) = [] := by
  by_cases hP : P
  · rw [if_pos hP]
    simp [List.filter_cons, createAlert, ht]
  · rw [if_neg hP]
    rfl

/-- Every alert built by the concerning loop passes the CONCERNING_OBJECT
filter. -/
theorem filter_concerning_self (l : List String) (now : Int) :
    ((l.map (fun c => createAlert now "CONCERNING_OBJECT"
        ("Concerning object detected: " ++ c) "high")).filter
      (fun a => a.type = "CONCERNING_OBJECT"))
    = l.map (fun c => createAlert now "CONCERNING_OBJECT"
        ("Concerning object detected: " ++ c) "high") := by
  induction l with
  | nil => rfl
  | cons c cs ih => simp [List.filter_cons, createAlert, ih]

/-- C6 amended: the candidate phase emits one CONCERNING_OBJECT alert per
entity whose class contains a concerning keyword — priority "high",
message "Concerning object detected: {class}", independent of confidence —
but the returned result of `check_alerts` is cooldown-filtered, which never
returns two alerts of one type in a single call; with two knife entities
and empty history the result carries the CONCERNING_OBJECT alert once. -/
theorem concerning_object_alerts :
    (∀ (objects : List Entity) (classes : List String) (s : Summary) (now : Int),
       objects.mapM getClass = Except.ok classes →
       ∃ l, candidateAlertsE objects s now = Except.ok l
         ∧ l.filter (fun a => a.type = "CONCERNING_OBJECT")
             = (classes.filter
                 (fun c => concerningObjects.any (fun w => isSubstring w c))).map
                 (fun c => createAlert now "CONCERNING_OBJECT"
                   ("Concerning object detected: " ++ c) "high"))
    ∧ (∀ (history cands : List Alert) (now : Int),
         (∀ a ∈ cands, a.timestamp = now) →
         ((filterAlertsByCooldown history now cands).1).Pairwise
           (fun x y => x.type ≠ y.type))
    ∧ checkAlertsE twoKnives (analyze twoKnives) [] 100 =
        Except.ok ([knifeAlertAt 100], [knifeAlertAt 100]) := by
  refine ⟨?_, ?_, by decide⟩
  · intro objects classes s now h
    refine ⟨_, candidateAlertsE_ok h s now, ?_⟩
    rw [List.filter_append, List.filter_append, List.filter_append,
      filter_concerning_ite (s.people_count > 10) "CROWD_DETECTED"
        ("Unusually large crowd detected: " ++ toString s.people_count ++ " people")
        "medium" now (by decide),
      filter_concerning_ite (s.activity_level = "high" ∧ s.people_count = 0)
        "UNUSUAL_ACTIVITY" "High activity detected with no people present"
        "medium" now (by decide),
      filter_concerning_ite ((classes.filter
          (fun c => stationaryObjects.any (fun so => isSubstring so c))).length > 2)
        "ABANDONED_OBJECT" "Possible abandoned object detected" "low" now (by decide),
      concerningAlertsOf_eq, filter_concerning_self]
    simp
  · intro history cands now hstamp
    exact foldl_filterStep_types_pairwise now cands ([], history) hstamp
      (by intro a ha; simp at ha) (by simp)

/-- Witness for C6's amended statement: the two same-type knife candidates
of one call are cut down to pairwise-distinct types in the admitted
output. -/
theorem concerning_object_alerts_witness :
    ((filterAlertsByCooldown [] 100 [knifeAlertAt 100, knifeAlertAt 100]).1).Pairwise
      (fun x y => x.type ≠ y.type) :=
  concerning_object_alerts.2.1 [] [knifeAlertAt 100, knifeAlertAt 100] 100 (by decide)

/-- C6 fails as stated: two knife entities produce two CONCERNING_OBJECT
candidates, but the returned (cooldown-filtered) result of `check_alerts`
carries the alert once, not twice. -/
theorem concerning_per_entity_counterexample :
    checkAlertsE twoKnives (analyze twoKnives) [] 100 =
      Except.ok ([knifeAlertAt 100], [knifeAlertAt 100])
    ∧ (([knifeAlertAt 100]).filter (fun a => a.type = "CONCERNING_OBJECT")).length
        = 1 := by
  decide
